import Mathlib

/-!
Shallow embedding of the WebRTC signaling session coordinator of the
interview application (`WebRTCService`).

Two revisions of the service are modelled, following the source:

* namespace `V1` embeds the first revision in `src/lib/webrtc.ts`:
  the perfect-negotiation variant with a `makingOffer` flag and
  polite/impolite (candidate/interviewer) collision handling;
* namespace `V4` embeds the revision in the unnamed source file
  `part_003`: the variant with join handling, reconnection with a
  bounded retry budget, an ICE-restart path, `processPendingCandidates`
  and a `startCall` that resets negotiation state.

Modelling conventions: each reactive handler of the service is embedded
as a pure function from the coordinator state to a new state together
with a list of observable actions (messages sent over the relay,
callbacks fired, operations on the underlying peer connection).
Handlers run atomically, matching the single-actor reaction model of
the service.  Description-setting operations on the underlying peer
connection are modelled as succeeding, performing the standard
signaling-state transitions; a transition of the underlying connection
back to `stable` queues a deferred `signalingstatechange` reaction,
modelled by the `stableEventPending` flag together with a separate
event.  Fallibility of `addIceCandidate` is modelled by a success flag
and an error name carried on each candidate value.  Timers
(`setTimeout`) are modelled by armed flags plus explicit timer-fired
events.  Inbound signals are modelled post-filtering (the service only
processes envelopes whose declared role differs from its own).
-/

/-- Role of the local participant; the interviewer is the impolite peer
and the candidate the polite peer. -/
inductive Role where
  | interviewer
  | candidate
  deriving DecidableEq

/-- Signaling state of the underlying `RTCPeerConnection`. -/
inductive SigState where
  | stable
  | haveLocalOffer
  | haveRemoteOffer
  | closed
  deriving DecidableEq

/-- ICE connection state of the underlying `RTCPeerConnection`. -/
inductive IceState where
  | iceNew
  | checking
  | connected
  | completed
  | failed
  | disconnected
  | closed
  deriving DecidableEq

/-- Overall connection state of the underlying `RTCPeerConnection`. -/
inductive ConnState where
  | connNew
  | connecting
  | connected
  | disconnected
  | failed
  | closed
  deriving DecidableEq

/-- Error names distinguished by the source when `addIceCandidate` or a
signal handler fails. -/
inductive ErrName where
  | operationError
  | invalidStateError
  | otherError
  deriving DecidableEq

/-- An ICE candidate as it travels through the service.  `ok` records
whether applying it with `addIceCandidate` succeeds, and `err` the error
name raised when it does not (environment oracle carried on the data). -/
structure Cand where
  id : Nat
  ok : Bool
  err : ErrName
  deriving DecidableEq

/-- A local media track.  `stopTransitions` counts the live-to-ended
transitions the track has undergone (calling `stop()` on an already
ended track is a no-op per the media-capture contract). -/
structure Track where
  id : Nat
  enabled : Bool
  ended : Bool
  stopTransitions : Nat
  deriving DecidableEq

/-- Browser `MediaStreamTrack.stop()`: idempotent, never throws. -/
def trackStop (t : Track) : Track :=
  if t.ended then t else { t with ended := true, stopTransitions := t.stopTransitions + 1 }

/-- Observable actions a handler can perform: relay messages, peer
connection operations and UI callbacks. -/
inductive Act where
  | sendOffer
  | sendAnswer (dest : String)
  | sendJoin
  | rollback
  | setRemoteOffer (d : Nat)
  | setRemoteAnswer (d : Nat)
  | applyCandidate (c : Cand)
  | applyCandidateFailed (c : Cand)
  | remoteStreamCb (tracks : Option (List Nat))
  | localStreamCb
  | restartIce
  | reconnect
  | stopTrack (tid : Nat)
  | closeConnection
  | unsubscribe
  deriving DecidableEq

namespace V1

/-- Coordinator state of the first revision of `src/lib/webrtc.ts`
(fields `userRole`, the peer connection's signaling state,
`isNegotiating`, `makingOffer`, `hasRemoteDescription`,
`pendingCandidates`, the applied remote description, and the composed
remote stream as a list of track ids). -/
structure State where
  role : Role
  signalingState : SigState
  isNegotiating : Bool
  makingOffer : Bool
  hasRemoteDescription : Bool
  pendingCandidates : List Cand
  remoteDescription : Option Nat
  remoteTracks : Option (List Nat)
  deriving DecidableEq

/-- State right after the constructor ran (field initializers of the
class). -/
def initState (r : Role) : State :=
  { role := r
    signalingState := .stable
    isNegotiating := false
    makingOffer := false
    hasRemoteDescription := false
    pendingCandidates := []
    remoteDescription := none
    remoteTracks := none }

/-- Collision test of `handleSignalData`, case `'offer'`
(`src/lib/webrtc.ts` lines 195-196): `this.makingOffer ||
this.peerConnection.signalingState !== 'stable'`. -/
def offerCollision (s : State) : Prop :=
  s.makingOffer = true ∨ s.signalingState ≠ .stable

instance (s : State) : Decidable (offerCollision s) := by
  unfold offerCollision
  infer_instance

/-- Case `'offer'` of `handleSignalData` (`src/lib/webrtc.ts` lines
191-229).  The polite peer is the candidate.  An impolite peer ignores
a colliding offer; a polite peer rolls back its local description and
sets the incoming offer as remote description; then the receiver
answers, addressed to the sender.  Setting the remote offer and then
the local answer leaves the connection in `stable`. -/
def handleOffer (d : Nat) (sender : String) (s : State) : State × List Act :=
  let polite := s.role = Role.candidate
  if ¬polite ∧ offerCollision s then
    (s, [])
  else
    let preActs := if offerCollision s then [Act.rollback, Act.setRemoteOffer d]
                   else [Act.setRemoteOffer d]
    ({ s with signalingState := .stable
              remoteDescription := some d
              hasRemoteDescription := true },
     preActs ++ [Act.sendAnswer sender])

/-- Case `'answer'` of `handleSignalData` (`src/lib/webrtc.ts` lines
231-238): applied only in signaling state `have-local-offer`; setting
the remote answer returns the connection to `stable`. -/
def handleAnswer (d : Nat) (s : State) : State × List Act :=
  if s.signalingState = .haveLocalOffer then
    ({ s with signalingState := .stable
              remoteDescription := some d
              hasRemoteDescription := true
              isNegotiating := false },
     [Act.setRemoteAnswer d])
  else
    (s, [])

/-- The `onnegotiationneeded` handler (`src/lib/webrtc.ts` lines
127-164): guarded by `isNegotiating || makingOffer`; aborts if the
signaling state is not stable; otherwise sets the local offer and
broadcasts it.  `makingOffer` is cleared again in the `finally`
block, so it is `false` at every handler boundary. -/
def onNegotiationNeeded (s : State) : State × List Act :=
  if s.isNegotiating = true ∨ s.makingOffer = true then
    (s, [])
  else if s.signalingState ≠ .stable then
    ({ s with isNegotiating := true, makingOffer := false }, [])
  else
    ({ s with isNegotiating := true, makingOffer := false,
              signalingState := .haveLocalOffer },
     [Act.sendOffer])

/-- The `onended` reaction installed on each received remote track
(`src/lib/webrtc.ts` lines 84-94): the track is removed from the
composed remote stream; the remote-stream callback is invoked with
`null` when no track remains and with the updated stream otherwise. -/
def handleTrackEnded (tid : Nat) (s : State) : State × List Act :=
  match s.remoteTracks with
  | none => (s, [])
  | some l =>
      let l' := l.erase tid
      ({ s with remoteTracks := some l' },
       [Act.remoteStreamCb (if l' = [] then none else some l')])

end V1

namespace V4

/-- Underlying `RTCPeerConnection` of the `part_003` revision, with the
standard signaling-state machine, `currentRemoteDescription` and
`pendingRemoteDescription`, ICE and overall connection states, and the
attached senders. -/
structure Pc where
  signalingState : SigState
  currentRemote : Option Nat
  pendingRemote : Option Nat
  iceState : IceState
  connState : ConnState
  senders : List Nat
  deriving DecidableEq

/-- The `remoteDescription` attribute: the pending remote description if
one exists, the current one otherwise. -/
def Pc.remoteDescription (pc : Pc) : Option Nat :=
  match pc.pendingRemote with
  | some d => some d
  | none => pc.currentRemote

/-- A freshly constructed peer connection (`initializePeerConnection`). -/
def Pc.init : Pc :=
  { signalingState := .stable
    currentRemote := none
    pendingRemote := none
    iceState := .iceNew
    connState := .connNew
    senders := [] }

/-- `setRemoteDescription` with an offer. -/
def Pc.setRemoteOfferDesc (pc : Pc) (d : Nat) : Pc :=
  { pc with signalingState := .haveRemoteOffer, pendingRemote := some d }

/-- `setRemoteDescription` with an answer (returns to `stable`). -/
def Pc.setRemoteAnswerDesc (pc : Pc) (d : Nat) : Pc :=
  { pc with signalingState := .stable, currentRemote := some d, pendingRemote := none }

/-- `setLocalDescription` with an answer: commits the pending remote
offer and returns to `stable`. -/
def Pc.setLocalAnswerDesc (pc : Pc) : Pc :=
  { pc with signalingState := .stable,
            currentRemote := pc.pendingRemote,
            pendingRemote := none }

/-- `setLocalDescription` with an offer. -/
def Pc.setLocalOfferDesc (pc : Pc) : Pc :=
  { pc with signalingState := .haveLocalOffer }

/-- `setLocalDescription({type: 'rollback'})`: discards the pending
remote description and returns to `stable`. -/
def Pc.rollbackLocal (pc : Pc) : Pc :=
  { pc with signalingState := .stable, pendingRemote := none }

/-- Coordinator state of the `part_003` revision of `WebRTCService`.
`timeoutArmed` models the `connectionTimeout` timer, `negTimerArmed`
the `setTimeout` in the `finally` of `createAndSendOffer` (resets
`isNegotiating`), `offerTimerArmed` the `setTimeout` in the `finally`
of `onnegotiationneeded` (resets `canCreateOffer`), and
`stableEventPending` a queued `signalingstatechange` reaction for a
transition back to `stable`. -/
structure State where
  role : Role
  pc : Pc
  localStream : Option (List Track)
  remoteStream : Option (List Nat)
  pendingCandidates : List Cand
  hasRemoteDescription : Bool
  timeoutArmed : Bool
  reconnectAttempts : Nat
  remoteUserJoined : Bool
  callInProgress : Bool
  isNegotiating : Bool
  canCreateOffer : Bool
  stableEventPending : Bool
  negTimerArmed : Bool
  offerTimerArmed : Bool
  deriving DecidableEq

/-- The reconnection budget (`maxReconnectAttempts = 3`, `part_003`
line 25). -/
def maxReconnectAttempts : Nat := 3

/-- State right after the constructor ran (field initializers of the
class in `part_003`). -/
def initState (r : Role) : State :=
  { role := r
    pc := Pc.init
    localStream := none
    remoteStream := none
    pendingCandidates := []
    hasRemoteDescription := false
    timeoutArmed := false
    reconnectAttempts := 0
    remoteUserJoined := false
    callInProgress := false
    isNegotiating := false
    canCreateOffer := true
    stableEventPending := false
    negTimerArmed := false
    offerTimerArmed := false }

/-- Result of attempting one queued candidate during a drain. -/
def attemptAct (c : Cand) : Act :=
  if c.ok then Act.applyCandidate c else Act.applyCandidateFailed c

/-- The drain loop of `processPendingCandidates` (`part_003` lines
417-429): each candidate of the copied queue is attempted in order; a
failing candidate is pushed back onto the queue unless the failure is
an `OperationError`. -/
def attemptCandidates : List Cand → List Act × List Cand
  | [] => ([], [])
  | c :: rest =>
      let r := attemptCandidates rest
      if c.ok then (Act.applyCandidate c :: r.1, r.2)
      else if c.err = ErrName.operationError then (Act.applyCandidateFailed c :: r.1, r.2)
      else (Act.applyCandidateFailed c :: r.1, c :: r.2)

/-- `processPendingCandidates` (`part_003` lines 400-430): returns
immediately when the queue is empty or when the peer connection has no
remote description; otherwise the queue is copied, cleared, and every
candidate attempted in arrival order, requeueing the failures that are
not `OperationError`. -/
def processPendingCandidates (s : State) : State × List Act :=
  if s.pendingCandidates.isEmpty then (s, [])
  else if s.pc.remoteDescription.isNone then (s, [])
  else
    let r := attemptCandidates s.pendingCandidates
    ({ s with pendingCandidates := r.2 }, r.1)

/-- Body of `onsignalingstatechange` when the state is `'stable'`
(`part_003` lines 174-178): clears `isNegotiating`, drains the pending
queue and re-enables offer creation. -/
def onSignalingStable (s : State) : State × List Act :=
  let r := processPendingCandidates { s with isNegotiating := false }
  ({ r.1 with canCreateOffer := true }, r.2)

/-- Dispatch of a queued `signalingstatechange` reaction: it fires only
if a transition to `stable` is actually pending, and the handler body
runs only if the connection is still in `stable` when it fires. -/
def handleStableEvent (s : State) : State × List Act :=
  if s.stableEventPending then
    let s0 := { s with stableEventPending := false }
    if s0.pc.signalingState = .stable then onSignalingStable s0 else (s0, [])
  else
    (s, [])

/-- `createAndSendOffer` (`part_003` lines 432-471): guarded by
`isNegotiating`; sets the flag, aborts if the signaling state is not
stable, otherwise sets the local offer and broadcasts it; the `finally`
block schedules a timer that resets `isNegotiating` after one second. -/
def createAndSendOffer (s : State) : State × List Act :=
  if s.isNegotiating = true then
    (s, [])
  else
    let s1 := { s with isNegotiating := true, negTimerArmed := true }
    if s1.pc.signalingState ≠ .stable then
      (s1, [])
    else
      ({ s1 with pc := s1.pc.setLocalOfferDesc }, [Act.sendOffer])

/-- The timer scheduled by `createAndSendOffer` fires: `isNegotiating`
is reset. -/
def negTimerFired (s : State) : State × List Act :=
  if s.negTimerArmed then
    ({ s with isNegotiating := false, negTimerArmed := false }, [])
  else
    (s, [])

/-- `onnegotiationneeded` (`part_003` lines 182-228): guarded by
`isNegotiating || !canCreateOffer`; sets both flags, aborts if the
signaling state is not stable, otherwise sets the local offer and
broadcasts it; the `finally` block schedules a timer that re-enables
`canCreateOffer` after three seconds. -/
def onNegotiationNeeded (s : State) : State × List Act :=
  if s.isNegotiating = true ∨ s.canCreateOffer = false then
    (s, [])
  else
    let s1 := { s with isNegotiating := true, canCreateOffer := false,
                       offerTimerArmed := true }
    if s1.pc.signalingState ≠ .stable then
      (s1, [])
    else
      ({ s1 with pc := s1.pc.setLocalOfferDesc }, [Act.sendOffer])

/-- The timer scheduled by `onnegotiationneeded` fires: `canCreateOffer`
is re-enabled. -/
def offerTimerFired (s : State) : State × List Act :=
  if s.offerTimerArmed then
    ({ s with canCreateOffer := true, offerTimerArmed := false }, [])
  else
    (s, [])

/-- Case `'offer'` of `handleSignalData` (`part_003` lines 302-346):
the interviewer ignores an offer while negotiating or in a non-stable
state; a rollback is performed when a remote offer is already pending;
then the incoming offer is set as remote description, the pending
queue drained, and an answer created, set locally and sent to the
sender. -/
def handleOffer (d : Nat) (sender : String) (s : State) : State × List Act :=
  if s.role = Role.interviewer ∧ (s.isNegotiating = true ∨ s.pc.signalingState ≠ .stable) then
    (s, [])
  else
    let rb :=
      if s.pc.signalingState = .haveRemoteOffer then
        (({ s with pc := s.pc.rollbackLocal, stableEventPending := true } : State),
         [Act.rollback])
      else (s, [])
    let s2 := { rb.1 with pc := rb.1.pc.setRemoteOfferDesc d, hasRemoteDescription := true }
    let dr := processPendingCandidates s2
    ({ dr.1 with pc := dr.1.pc.setLocalAnswerDesc, stableEventPending := true },
     rb.2 ++ Act.setRemoteOffer d :: dr.2 ++ [Act.sendAnswer sender])

/-- Case `'answer'` of `handleSignalData` (`part_003` lines 348-360):
applied only in signaling state `have-local-offer`, setting the remote
answer, marking the description present and draining the pending
queue; otherwise the envelope is ignored. -/
def handleAnswer (d : Nat) (s : State) : State × List Act :=
  if s.pc.signalingState = .haveLocalOffer then
    let s1 := { s with pc := s.pc.setRemoteAnswerDesc d,
                       hasRemoteDescription := true,
                       stableEventPending := true }
    let dr := processPendingCandidates s1
    (dr.1, Act.setRemoteAnswer d :: dr.2)
  else
    (s, [])

/-- Case `'ice-candidate'` of `handleSignalData` (`part_003` lines
362-387): a null payload is ignored; with a remote description present
the candidate is applied immediately, and a failing application is
requeued only on `InvalidStateError`; without a remote description the
candidate is queued. -/
def handleIceCandidate (c : Option Cand) (s : State) : State × List Act :=
  match c with
  | none => (s, [])
  | some c =>
      if s.hasRemoteDescription = true ∧ s.pc.remoteDescription.isSome then
        if c.ok then (s, [Act.applyCandidate c])
        else if c.err = ErrName.invalidStateError then
          ({ s with pendingCandidates := s.pendingCandidates ++ [c] },
           [Act.applyCandidateFailed c])
        else (s, [Act.applyCandidateFailed c])
      else
        ({ s with pendingCandidates := s.pendingCandidates ++ [c] }, [])

/-- `handleRemoteJoin` (`part_003` lines 288-297): records that the
remote user joined; an interviewer holding a local stream creates and
sends an offer. -/
def handleRemoteJoin (s : State) : State × List Act :=
  let s1 := { s with remoteUserJoined := true }
  if s1.role = Role.interviewer ∧ s1.localStream.isSome then
    createAndSendOffer s1
  else
    (s1, [])

/-- The reset block at the start of `startCall` (`part_003` lines
546-550): `isNegotiating`, `canCreateOffer`, `hasRemoteDescription`
and `pendingCandidates` are reset before anything else happens. -/
def startCallReset (s : State) : State :=
  { s with isNegotiating := false
           canCreateOffer := true
           hasRemoteDescription := false
           pendingCandidates := [] }

/-- Enabling a local track (`track.enabled = true`). -/
def enableTrack (t : Track) : Track :=
  { t with enabled := true }

/-- `startCall` (`part_003` lines 542-597): resets the negotiation
state, stores and announces the local stream with all tracks enabled,
replaces the senders of the peer connection with the stream's tracks,
announces presence with a join envelope, and, when the local role is
the interviewer and the remote user already joined, creates and sends
an offer. -/
def startCall (stream : List Track) (s : State) : State × List Act :=
  let s0 := startCallReset s
  let stream1 := stream.map enableTrack
  let s1 := { s0 with localStream := some stream1 }
  let s2 := { s1 with pc := { s1.pc with senders := stream1.map Track.id } }
  if s2.role = Role.interviewer ∧ s2.remoteUserJoined = true then
    let r := createAndSendOffer s2
    (r.1, Act.localStreamCb :: Act.sendJoin :: r.2)
  else
    (s2, [Act.localStreamCb, Act.sendJoin])

/-- `handleConnectionFailure` (`part_003` lines 512-540): once the
retry budget is exhausted the remote-stream callback is invoked with
null and nothing else happens; otherwise the attempt counter is
incremented, the connection closed and reinitialized, the channel
re-subscribed, and the call restarted when a local stream is held. -/
def handleConnectionFailure (s : State) : State × List Act :=
  if maxReconnectAttempts ≤ s.reconnectAttempts then
    (s, [Act.remoteStreamCb none])
  else
    let s1 := { s with reconnectAttempts := s.reconnectAttempts + 1, pc := Pc.init }
    match s1.localStream with
    | some stream =>
        let r := startCall stream s1
        (r.1, Act.closeConnection :: Act.reconnect :: r.2)
    | none => (s1, [Act.closeConnection, Act.reconnect])

/-- `oniceconnectionstatechange` (`part_003` lines 131-151): records
the new ICE state; on `connected`/`completed` the connection timeout is
cleared and the attempt counter reset; on `failed` an ICE restart is
attempted on the existing connection; on `disconnected` the connection
timeout is armed. -/
def handleIceStateChange (st : IceState) (s : State) : State × List Act :=
  let s0 := { s with pc := { s.pc with iceState := st } }
  match st with
  | .connected => ({ s0 with timeoutArmed := false, reconnectAttempts := 0 }, [])
  | .completed => ({ s0 with timeoutArmed := false, reconnectAttempts := 0 }, [])
  | .failed => (s0, [Act.restartIce])
  | .disconnected => ({ s0 with timeoutArmed := true }, [])
  | _ => (s0, [])

/-- `onconnectionstatechange` (`part_003` lines 154-168): records the
new state; on `connected` the call is marked in progress and the
timeout cleared; on `failed` or `closed` the connection-failure path
runs. -/
def handleConnStateChange (st : ConnState) (s : State) : State × List Act :=
  let s0 := { s with pc := { s.pc with connState := st } }
  match st with
  | .connected => ({ s0 with callInProgress := true, timeoutArmed := false }, [])
  | .failed => handleConnectionFailure s0
  | .closed => handleConnectionFailure s0
  | _ => (s0, [])

/-- The connection timeout fires (`setConnectionTimeout`, `part_003`
lines 490-503): if the ICE connection is still `disconnected` or
`failed`, the connection-failure path runs. -/
def handleTimeoutFired (s : State) : State × List Act :=
  if s.timeoutArmed then
    let s0 := { s with timeoutArmed := false }
    if s0.pc.iceState = .disconnected ∨ s0.pc.iceState = .failed then
      handleConnectionFailure s0
    else
      (s0, [])
  else
    (s, [])

/-- `cleanup` (`part_003` lines 599-634): clears the connection
timeout, stops every local track, closes the peer connection,
unsubscribes from the signaling channel (directly and through the
stored subscription), invokes the remote-stream callback with null and
resets the mutable state. -/
def cleanup (s : State) : State × List Act :=
  let s0 := { s with timeoutArmed := false }
  let stopped :=
    match s0.localStream with
    | some ts => (({ s0 with localStream := some (ts.map trackStop) } : State),
                  ts.map (fun (t : Track) => Act.stopTrack t.id))
    | none => (s0, [])
  let s2 := { stopped.1 with
                pc := { stopped.1.pc with signalingState := .closed,
                                          iceState := .closed,
                                          connState := .closed },
                remoteUserJoined := false,
                callInProgress := false,
                isNegotiating := false,
                hasRemoteDescription := false,
                pendingCandidates := [] }
  (s2, stopped.2 ++ [Act.closeConnection, Act.unsubscribe, Act.unsubscribe,
                     Act.remoteStreamCb none])

/-- Events a coordinator instance reacts to: inbound (role-filtered)
signal envelopes, peer-connection callbacks, timers and the caller's
public interface. -/
inductive Event where
  | signalOffer (d : Nat) (sender : String)
  | signalAnswer (d : Nat)
  | signalIce (c : Option Cand)
  | signalJoin
  | negotiationNeeded
  | stableFired
  | iceStateChange (st : IceState)
  | connStateChange (st : ConnState)
  | timeoutFired
  | negTimer
  | offerTimer
  | callerStart (stream : List Track)
  | callerStop
  deriving DecidableEq

/-- Single-actor dispatch of one event. -/
def step (e : Event) (s : State) : State × List Act :=
  match e with
  | .signalOffer d sender => handleOffer d sender s
  | .signalAnswer d => handleAnswer d s
  | .signalIce c => handleIceCandidate c s
  | .signalJoin => handleRemoteJoin s
  | .negotiationNeeded => onNegotiationNeeded s
  | .stableFired => handleStableEvent s
  | .iceStateChange st => handleIceStateChange st s
  | .connStateChange st => handleConnStateChange st s
  | .timeoutFired => handleTimeoutFired s
  | .negTimer => negTimerFired s
  | .offerTimer => offerTimerFired s
  | .callerStart stream => startCall stream s
  | .callerStop => cleanup s

/-- One fold step of a run: dispatch the event and append its actions. -/
def stepFold (p : State × List Act) (e : Event) : State × List Act :=
  let q := step e p.1
  (q.1, p.2 ++ q.2)

/-- Run a sequence of events from the freshly constructed coordinator,
accumulating the emitted actions. -/
def runA (es : List Event) (r : Role) : State × List Act :=
  es.foldl stepFold (initState r, [])

/-- Iterated connection-failure events (each one dispatching
`handleConnectionFailure`), accumulating the emitted actions. -/
def iterFailures : Nat → State → State × List Act
  | 0, s => (s, [])
  | n + 1, s =>
      let r := handleConnectionFailure s
      let r2 := iterFailures n r.1
      (r2.1, r.2 ++ r2.2)

/-- Events that perform a lifecycle reset of the coordinator: the
caller's `startCall` and `cleanup`, and the failure paths that can
trigger a reconnection (which restarts the call internally). -/
def lifecycleEvent : Event → Bool
  | .callerStart _ => true
  | .callerStop => true
  | .connStateChange .failed => true
  | .connStateChange .closed => true
  | .timeoutFired => true
  | _ => false

/-- Formalization of the claimed queue invariant: at every reachable
state, any event either extends the pending queue at the tail, or the
coordinator's `hasRemoteDescription` flag is set (so that a drain is
permitted). -/
def pendingQueueInvariantClaim : Prop :=
  ∀ (r : Role) (es : List Event) (e : Event),
    (∃ tail, (step e (runA es r).1).1.pendingCandidates
        = (runA es r).1.pendingCandidates ++ tail)
    ∨ (runA es r).1.hasRemoteDescription = true

end V4

/-- Number of remote-stream callbacks invoked with null in a list of
actions. -/
def countNullCb (as : List Act) : Nat :=
  as.countP (fun a => a == Act.remoteStreamCb none)

/-- Number of full reconnection attempts started in a list of
actions. -/
def countReconnect (as : List Act) : Nat :=
  as.countP (fun a => a == Act.reconnect)


lemma attemptCandidates_spec (l : List Cand) :
    (V4.attemptCandidates l).1 = l.map V4.attemptAct ∧
    (V4.attemptCandidates l).2
      = l.filter (fun c => !c.ok && !(c.err == ErrName.operationError)) := by
  induction l with
  | nil => simp [V4.attemptCandidates]
  | cons c rest ih =>
      by_cases hok : c.ok = true
      · simp [V4.attemptCandidates, V4.attemptAct, hok, ih.1, ih.2, List.filter_cons]
      · by_cases herr : c.err = ErrName.operationError <;>
          simp [V4.attemptCandidates, V4.attemptAct, hok, herr, ih.1, ih.2,
                List.filter_cons]

lemma processPending_spec (s : V4.State) (h : s.pc.remoteDescription.isSome = true) :
    (V4.processPendingCandidates s).2 = s.pendingCandidates.map V4.attemptAct ∧
    (V4.processPendingCandidates s).1
      = { s with pendingCandidates :=
            s.pendingCandidates.filter (fun c => !c.ok && !(c.err == ErrName.operationError)) } := by
  obtain ⟨ro, pc, ls, rs, pend, hrd, ta, ra, ruj, cip, ineg, cco, sep, nta, ota⟩ := s
  have hn : pc.remoteDescription.isNone = false := by
    cases hd : pc.remoteDescription <;> simp_all
  cases pend with
  | nil => simp [V4.processPendingCandidates, hn]
  | cons c rest => simp [V4.processPendingCandidates, hn, attemptCandidates_spec]

lemma processPending_pc (s : V4.State) :
    (V4.processPendingCandidates s).1.pc = s.pc := by
  unfold V4.processPendingCandidates
  split
  · rfl
  · split
    · rfl
    · rfl

lemma processPending_hasRemote (s : V4.State) :
    (V4.processPendingCandidates s).1.hasRemoteDescription = s.hasRemoteDescription := by
  unfold V4.processPendingCandidates
  split
  · rfl
  · split
    · rfl
    · rfl

lemma processPending_pending_cases (s : V4.State) :
    (V4.processPendingCandidates s).1.pendingCandidates = s.pendingCandidates
    ∨ s.pc.remoteDescription.isSome = true := by
  unfold V4.processPendingCandidates
  split
  · exact Or.inl rfl
  · split
    · exact Or.inl rfl
    · rename_i hne hrd
      right
      cases hd : s.pc.remoteDescription
      · rw [hd] at hrd; simp at hrd
      · simp

lemma createAndSendOffer_state (s : V4.State) :
    (V4.createAndSendOffer s).1.pendingCandidates = s.pendingCandidates ∧
    (V4.createAndSendOffer s).1.hasRemoteDescription = s.hasRemoteDescription ∧
    (V4.createAndSendOffer s).1.reconnectAttempts = s.reconnectAttempts ∧
    (V4.createAndSendOffer s).1.pc.iceState = s.pc.iceState ∧
    (V4.createAndSendOffer s).1.localStream = s.localStream := by
  unfold V4.createAndSendOffer
  by_cases h1 : s.isNegotiating = true
  · simp [h1]
  · by_cases h2 : s.pc.signalingState = SigState.stable <;>
      simp [h1, h2, V4.Pc.setLocalOfferDesc]

lemma createAndSendOffer_acts_mem (s : V4.State) :
    ∀ a ∈ (V4.createAndSendOffer s).2, a = Act.sendOffer := by
  unfold V4.createAndSendOffer
  by_cases h1 : s.isNegotiating = true
  · simp [h1]
  · by_cases h2 : s.pc.signalingState = SigState.stable <;> simp [h1, h2]

lemma startCall_state (stream : List Track) (s : V4.State) :
    (V4.startCall stream s).1.pendingCandidates = [] ∧
    (V4.startCall stream s).1.hasRemoteDescription = false ∧
    (V4.startCall stream s).1.reconnectAttempts = s.reconnectAttempts ∧
    (V4.startCall stream s).1.pc.iceState = s.pc.iceState := by
  unfold V4.startCall
  by_cases hc : s.role = Role.interviewer ∧ s.remoteUserJoined = true
  · simp [hc, V4.startCallReset, createAndSendOffer_state]
  · simp [hc, V4.startCallReset]

lemma startCall_acts_mem (stream : List Track) (s : V4.State) :
    ∀ a ∈ (V4.startCall stream s).2,
      a = Act.localStreamCb ∨ a = Act.sendJoin ∨ a = Act.sendOffer := by
  unfold V4.startCall
  by_cases hc : s.role = Role.interviewer ∧ s.remoteUserJoined = true
  · intro a ha
    simp [hc, V4.startCallReset] at ha
    rcases ha with ha | ha | ha
    · exact Or.inl ha
    · exact Or.inr (Or.inl ha)
    · exact Or.inr (Or.inr (createAndSendOffer_acts_mem _ a ha))
  · intro a ha
    simp [hc, V4.startCallReset] at ha
    rcases ha with ha | ha
    · exact Or.inl ha
    · exact Or.inr (Or.inl ha)

/-- Claim C1: on an inbound `Offer` handled during a collision (the
receiver is making an offer or its signaling phase is not stable), the
impolite peer (role interviewer) discards the offer and changes no
negotiation state, while the polite peer (role candidate) rolls back
its local description, sets the incoming offer as remote description,
and creates and sends an answer to the sender. -/
theorem c1_offer_collision_rule (s : V1.State) (d : Nat) (sender : String)
    (hc : V1.offerCollision s) :
    (s.role = Role.interviewer → V1.handleOffer d sender s = (s, [])) ∧
    (s.role = Role.candidate →
      V1.handleOffer d sender s =
        ({ s with signalingState := .stable,
                  remoteDescription := some d,
                  hasRemoteDescription := true },
         [Act.rollback, Act.setRemoteOffer d, Act.sendAnswer sender])) := by
  constructor
  · intro hr
    simp [V1.handleOffer, hr, hc]
  · intro hr
    simp [V1.handleOffer, hr, hc]

/-- Witness for C1 at a concrete collision state: an interviewer in
`have-local-offer` discards the inbound offer unchanged. -/
theorem c1_offer_collision_rule_w :
    V1.handleOffer 5 "peerA"
        { V1.initState Role.interviewer with signalingState := .haveLocalOffer }
      = ({ V1.initState Role.interviewer with signalingState := .haveLocalOffer }, []) :=
  (c1_offer_collision_rule
    { V1.initState Role.interviewer with signalingState := .haveLocalOffer }
    5 "peerA" (by decide)).1 (by decide)

/-- Claim C3: an inbound `Answer` received when the signaling phase is
not `have-local-offer` is discarded with no state change, in both the
`src/lib/webrtc.ts` revision and the `part_003` revision; it is applied
(remote description set, flag raised) exactly when the phase is
`have-local-offer`. -/
theorem c3_answer_guard (s : V1.State) (t : V4.State) (d : Nat) :
    (s.signalingState ≠ .haveLocalOffer → V1.handleAnswer d s = (s, [])) ∧
    (t.pc.signalingState ≠ .haveLocalOffer → V4.handleAnswer d t = (t, [])) ∧
    (s.signalingState = .haveLocalOffer →
      (V1.handleAnswer d s).1.remoteDescription = some d ∧
      (V1.handleAnswer d s).1.hasRemoteDescription = true) ∧
    (t.pc.signalingState = .haveLocalOffer →
      (V4.handleAnswer d t).1.pc.currentRemote = some d ∧
      (V4.handleAnswer d t).1.hasRemoteDescription = true) := by
  refine ⟨?_, ?_, ?_, ?_⟩
  · intro h; simp [V1.handleAnswer, h]
  · intro h; simp [V4.handleAnswer, h]
  · intro h; simp [V1.handleAnswer, h]
  · intro h
    simp [V4.handleAnswer, h, processPending_pc, processPending_hasRemote,
          V4.Pc.setRemoteAnswerDesc]

/-- Witness for C3: a stable-state coordinator of each revision ignores
an answer envelope. -/
theorem c3_answer_guard_w :
    V1.handleAnswer 9 (V1.initState Role.interviewer)
        = (V1.initState Role.interviewer, []) ∧
    V4.handleAnswer 9 (V4.initState Role.interviewer)
        = (V4.initState Role.interviewer, []) :=
  ⟨(c3_answer_guard (V1.initState Role.interviewer) (V4.initState Role.interviewer) 9).1
      (by decide),
   (c3_answer_guard (V1.initState Role.interviewer) (V4.initState Role.interviewer) 9).2.1
      (by decide)⟩

/-- Claim C5: while `isNegotiating` is true no second local
offer-creation attempt starts - the `onnegotiationneeded` handlers of
both revisions and `createAndSendOffer` of `part_003` return without
touching the state or emitting an offer. -/
theorem c5_no_second_offer (s : V4.State) (t : V1.State)
    (hs : s.isNegotiating = true) (ht : t.isNegotiating = true) :
    V4.onNegotiationNeeded s = (s, []) ∧
    V4.createAndSendOffer s = (s, []) ∧
    V1.onNegotiationNeeded t = (t, []) := by
  refine ⟨?_, ?_, ?_⟩
  · simp [V4.onNegotiationNeeded, hs]
  · simp [V4.createAndSendOffer, hs]
  · simp [V1.onNegotiationNeeded, ht]

/-- Witness for C5 at concrete negotiating states. -/
theorem c5_no_second_offer_w :
    V4.createAndSendOffer { V4.initState Role.interviewer with isNegotiating := true }
      = ({ V4.initState Role.interviewer with isNegotiating := true }, []) :=
  (c5_no_second_offer
    { V4.initState Role.interviewer with isNegotiating := true }
    { V1.initState Role.interviewer with isNegotiating := true }
    (by decide) (by decide)).2.1

/-- Claim C9: when a remote track's `ended` event fires, the track is
removed from the composed remote stream and the remote-stream callback
is invoked with null when it was the last remaining track, and with
the updated stream otherwise. -/
theorem c9_remote_track_ended (s : V1.State) (l : List Nat) (tid : Nat)
    (h : s.remoteTracks = some l) :
    V1.handleTrackEnded tid s =
      ({ s with remoteTracks := some (l.erase tid) },
       [Act.remoteStreamCb (if l.erase tid = [] then none else some (l.erase tid))]) := by
  simp [V1.handleTrackEnded, h]

/-- Witness for C9: with a single remote track, its end yields a null
callback. -/
theorem c9_remote_track_ended_w :
    V1.handleTrackEnded 4 { V1.initState Role.candidate with remoteTracks := some [4] }
      = ({ V1.initState Role.candidate with remoteTracks := some [] },
         [Act.remoteStreamCb none]) := by
  have h := c9_remote_track_ended
    { V1.initState Role.candidate with remoteTracks := some [4] } [4] 4 (by decide)
  simpa using h

/-- Claim C10: every invocation of `startCall` resets the negotiation
state before attaching tracks - the reset block clears `isNegotiating`,
`hasRemoteDescription` and the pending queue while leaving the stream
and peer connection untouched - and the completed call start leaves the
queue empty and the flag false, never applying a previously buffered
candidate. -/
theorem c10_startcall_resets (s : V4.State) (stream : List Track) :
    (V4.startCallReset s).isNegotiating = false ∧
    (V4.startCallReset s).hasRemoteDescription = false ∧
    (V4.startCallReset s).pendingCandidates = [] ∧
    (V4.startCallReset s).localStream = s.localStream ∧
    (V4.startCallReset s).pc = s.pc ∧
    (V4.startCall stream s).1.pendingCandidates = [] ∧
    (V4.startCall stream s).1.hasRemoteDescription = false ∧
    ∀ c : Cand, Act.applyCandidate c ∉ (V4.startCall stream s).2 := by
  obtain ⟨h1, h2, _, _⟩ := startCall_state stream s
  refine ⟨rfl, rfl, rfl, rfl, rfl, h1, h2, ?_⟩
  intro c hmem
  rcases startCall_acts_mem stream s _ hmem with h | h | h <;> simp at h

/-- Witness for C10 at a concrete state holding a buffered candidate. -/
theorem c10_startcall_resets_w :
    Act.applyCandidate ⟨3, true, ErrName.otherError⟩ ∉
      (V4.startCall []
        { V4.initState Role.candidate with
            pendingCandidates := [⟨3, true, ErrName.otherError⟩] }).2 :=
  (c10_startcall_resets
    { V4.initState Role.candidate with
        pendingCandidates := [⟨3, true, ErrName.otherError⟩] } []).2.2.2.2.2.2.2
    ⟨3, true, ErrName.otherError⟩

/-- Claim C2: an inbound ICE candidate is applied immediately when a
remote description is already set and otherwise appended to the tail
of the pending queue; when the signaling phase returns to stable, or a
remote description is freshly set by an answer, the queue is drained in
FIFO arrival order, every candidate being attempted, so a failure
applying one candidate does not prevent the remaining candidates from
being applied. -/
theorem c2_ice_buffering (s : V4.State) (c : Cand) (d : Nat) :
    (s.hasRemoteDescription = true → s.pc.remoteDescription.isSome = true → c.ok = true →
      V4.handleIceCandidate (some c) s = (s, [Act.applyCandidate c])) ∧
    (s.hasRemoteDescription = false →
      V4.handleIceCandidate (some c) s =
        ({ s with pendingCandidates := s.pendingCandidates ++ [c] }, [])) ∧
    (s.pc.remoteDescription.isSome = true →
      (V4.processPendingCandidates s).2 = s.pendingCandidates.map V4.attemptAct ∧
      (V4.processPendingCandidates s).1.pendingCandidates
        = s.pendingCandidates.filter (fun x => !x.ok && !(x.err == ErrName.operationError))) ∧
    (s.stableEventPending = true → s.pc.signalingState = .stable →
        s.pc.remoteDescription.isSome = true →
      (V4.handleStableEvent s).2 = s.pendingCandidates.map V4.attemptAct) ∧
    (s.pc.signalingState = .haveLocalOffer →
      (V4.handleAnswer d s).2
        = Act.setRemoteAnswer d :: s.pendingCandidates.map V4.attemptAct) := by
  refine ⟨?_, ?_, ?_, ?_, ?_⟩
  · intro h1 h2 h3
    simp [V4.handleIceCandidate, h1, h2, h3]
  · intro h1
    simp [V4.handleIceCandidate, h1]
  · intro h
    obtain ⟨hl, hr⟩ := processPending_spec s h
    exact ⟨hl, by rw [hr]⟩
  · intro hp hsig hrd
    have hx := (processPending_spec
      { s with stableEventPending := false, isNegotiating := false }
      (by simpa using hrd)).1
    simp [V4.handleStableEvent, hp, hsig, V4.onSignalingStable]
    simpa using hx
  · intro hsig
    have hx := (processPending_spec
      { s with pc := s.pc.setRemoteAnswerDesc d,
               hasRemoteDescription := true, stableEventPending := true }
      (by simp [V4.Pc.setRemoteAnswerDesc, V4.Pc.remoteDescription])).1
    simp [V4.handleAnswer, hsig]
    simpa using hx

/-- Witness for C2: a coordinator without remote description queues an
inbound candidate at the tail. -/
theorem c2_ice_buffering_w :
    V4.handleIceCandidate (some ⟨7, true, ErrName.otherError⟩) (V4.initState Role.candidate)
      = ({ V4.initState Role.candidate
              with pendingCandidates := [⟨7, true, ErrName.otherError⟩] }, []) := by
  have h := (c2_ice_buffering (V4.initState Role.candidate)
      ⟨7, true, ErrName.otherError⟩ 0).2.1 (by decide)
  simpa using h

lemma trackStop_idem (t : Track) : trackStop (trackStop t) = trackStop t := by
  by_cases h : t.ended = true <;> simp [trackStop, h]

lemma map_trackStop_idem (l : List Track) :
    (l.map trackStop).map trackStop = l.map trackStop := by
  induction l with
  | nil => simp
  | cons t tl ih => simp [trackStop_idem, ih]

/-- Claim C8: `cleanup` is idempotent and safe out of order - running
it twice yields the same state as running it once, each live local
track undergoes exactly one live-to-ended transition, and running it
with no local stream (before any `startCall`) is well defined and stops
no track. -/
theorem c8_cleanup_idem (s : V4.State) :
    (V4.cleanup (V4.cleanup s).1).1 = (V4.cleanup s).1 ∧
    (∀ ts, s.localStream = some ts →
      (V4.cleanup s).1.localStream = some (ts.map trackStop) ∧
      ∀ t ∈ ts, t.ended = false →
        (trackStop t).ended = true ∧ (trackStop t).stopTransitions = t.stopTransitions + 1) ∧
    (s.localStream = none →
      V4.cleanup s =
        ({ s with timeoutArmed := false,
                  pc := { s.pc with signalingState := .closed,
                                    iceState := .closed,
                                    connState := .closed },
                  remoteUserJoined := false,
                  callInProgress := false,
                  isNegotiating := false,
                  hasRemoteDescription := false,
                  pendingCandidates := [] },
         [Act.closeConnection, Act.unsubscribe, Act.unsubscribe,
          Act.remoteStreamCb none])) := by
  obtain ⟨ro, pc, ls, rs, pend, hrd, ta, ra, ruj, cip, ineg, cco, sep, nta, ota⟩ := s
  refine ⟨?_, ?_, ?_⟩
  · cases ls with
    | none => simp [V4.cleanup]
    | some ts => simp [V4.cleanup, map_trackStop_idem, trackStop_idem]
  · intro ts h
    cases h
    constructor
    · simp [V4.cleanup]
    · intro t _ hend
      simp [trackStop, hend]
  · intro h
    cases h
    simp [V4.cleanup]

/-- Witness for C8 at a concrete state with one live track, and at the
pre-start state. -/
theorem c8_cleanup_idem_w :
    (V4.cleanup (V4.cleanup { V4.initState Role.candidate with
        localStream := some [⟨1, true, false, 0⟩] }).1).1
      = (V4.cleanup { V4.initState Role.candidate with
          localStream := some [⟨1, true, false, 0⟩] }).1 ∧
    (trackStop ⟨1, true, false, 0⟩).ended = true ∧
    (trackStop ⟨1, true, false, 0⟩).stopTransitions = 0 + 1 := by
  have h := c8_cleanup_idem { V4.initState Role.candidate with
      localStream := some [⟨1, true, false, 0⟩] }
  exact ⟨h.1,
    ((h.2.1 [⟨1, true, false, 0⟩] rfl).2 ⟨1, true, false, 0⟩ (by simp) rfl)⟩

lemma countNullCb_append (l1 l2 : List Act) :
    countNullCb (l1 ++ l2) = countNullCb l1 + countNullCb l2 := by
  simp [countNullCb, List.countP_append]

lemma countReconnect_append (l1 l2 : List Act) :
    countReconnect (l1 ++ l2) = countReconnect l1 + countReconnect l2 := by
  simp [countReconnect, List.countP_append]

lemma startCall_countNull (stream : List Track) (s : V4.State) :
    countNullCb (V4.startCall stream s).2 = 0 := by
  rw [countNullCb, List.countP_eq_zero]
  intro a ha
  rcases startCall_acts_mem stream s a ha with h | h | h <;> subst h <;> decide

lemma startCall_countReconnect (stream : List Track) (s : V4.State) :
    countReconnect (V4.startCall stream s).2 = 0 := by
  rw [countReconnect, List.countP_eq_zero]
  intro a ha
  rcases startCall_acts_mem stream s a ha with h | h | h <;> subst h <;> decide

lemma iterFailures_spec (n : Nat) :
    ∀ s : V4.State, s.reconnectAttempts ≤ 3 →
      countReconnect (V4.iterFailures n s).2 = min n (3 - s.reconnectAttempts) ∧
      countNullCb (V4.iterFailures n s).2 = n - (3 - s.reconnectAttempts) ∧
      (V4.iterFailures n s).1.reconnectAttempts = min (s.reconnectAttempts + n) 3 := by
  induction n with
  | zero =>
      intro s ha
      refine ⟨?_, ?_, ?_⟩
      · simp [V4.iterFailures, countReconnect, countNullCb]
      · simp [V4.iterFailures, countReconnect, countNullCb]
      · simp [V4.iterFailures]
        omega
  | succ n ih =>
      intro s ha
      have hstep : V4.iterFailures (n + 1) s
          = ((V4.iterFailures n (V4.handleConnectionFailure s).1).1,
             (V4.handleConnectionFailure s).2
               ++ (V4.iterFailures n (V4.handleConnectionFailure s).1).2) := rfl
      by_cases hb : V4.maxReconnectAttempts ≤ s.reconnectAttempts
      · have ha3 : s.reconnectAttempts = 3 := by
          have hm : V4.maxReconnectAttempts = 3 := rfl
          omega
        have hr : V4.handleConnectionFailure s = (s, [Act.remoteStreamCb none]) := by
          simp [V4.handleConnectionFailure, hb]
        obtain ⟨i1, i2, i3⟩ := ih s ha
        rw [hstep, hr]
        dsimp only
        have e0 : countReconnect [Act.remoteStreamCb none] = 0 := by decide
        have e1 : countNullCb [Act.remoteStreamCb none] = 1 := by decide
        refine ⟨?_, ?_, ?_⟩
        · rw [countReconnect_append, e0, i1]
          omega
        · rw [countNullCb_append, e1, i2]
          omega
        · rw [i3]
          omega
      · have hb' : s.reconnectAttempts < 3 := by
          have hm : V4.maxReconnectAttempts = 3 := rfl
          omega
        have e2 : countReconnect [Act.closeConnection, Act.reconnect] = 1 := by decide
        have e3 : countNullCb [Act.closeConnection, Act.reconnect] = 0 := by decide
        cases hls : s.localStream with
        | some stream =>
            set s1 : V4.State :=
              { s with reconnectAttempts := s.reconnectAttempts + 1, pc := V4.Pc.init }
              with hs1
            have hs1a : s1.reconnectAttempts = s.reconnectAttempts + 1 := rfl
            have hr : V4.handleConnectionFailure s
                = ((V4.startCall stream s1).1,
                   Act.closeConnection :: Act.reconnect :: (V4.startCall stream s1).2) := by
              simp [V4.handleConnectionFailure, hb, hls, hs1]
            have hsc : (V4.startCall stream s1).1.reconnectAttempts
                = s.reconnectAttempts + 1 := by
              rw [(startCall_state stream s1).2.2.1, hs1a]
            obtain ⟨i1, i2, i3⟩ := ih (V4.startCall stream s1).1 (by omega)
            rw [hsc] at i1 i2 i3
            rw [hstep, hr]
            dsimp only
            refine ⟨?_, ?_, ?_⟩
            · rw [show (Act.closeConnection :: Act.reconnect :: (V4.startCall stream s1).2)
                  = [Act.closeConnection, Act.reconnect] ++ (V4.startCall stream s1).2
                  from rfl]
              rw [countReconnect_append, countReconnect_append, e2,
                  startCall_countReconnect, i1]
              omega
            · rw [show (Act.closeConnection :: Act.reconnect :: (V4.startCall stream s1).2)
                  = [Act.closeConnection, Act.reconnect] ++ (V4.startCall stream s1).2
                  from rfl]
              rw [countNullCb_append, countNullCb_append, e3, startCall_countNull, i2]
              omega
            · rw [i3]
              omega
        | none =>
            set s1 : V4.State :=
              { s with reconnectAttempts := s.reconnectAttempts + 1, pc := V4.Pc.init }
              with hs1
            have hs1a : s1.reconnectAttempts = s.reconnectAttempts + 1 := rfl
            have hr : V4.handleConnectionFailure s
                = (s1, [Act.closeConnection, Act.reconnect]) := by
              simp [V4.handleConnectionFailure, hb, hls, hs1]
            obtain ⟨i1, i2, i3⟩ := ih s1 (by omega)
            rw [hs1a] at i1 i2 i3
            rw [hstep, hr]
            dsimp only
            refine ⟨?_, ?_, ?_⟩
            · rw [countReconnect_append, e2, i1]
              omega
            · rw [countNullCb_append, e3, i2]
              omega
            · rw [i3]
              omega

/-- Claim C4 counterexample: after the reconnection budget is exceeded
the remote-stream callback is invoked with null once per subsequent
failure event, not exactly once - five consecutive failure events from
a fresh coordinator produce two null callbacks. -/
theorem c4_null_callback_cex :
    ¬ (∀ n : Nat, 3 < n →
        countNullCb (V4.iterFailures n (V4.initState Role.interviewer)).2 = 1) := by
  intro h
  exact absurd (h 5 (by norm_num)) (by decide)

/-- Claim C4 (amended): reconnection attempts are capped at 3 - a run
of n failure events starts exactly min n 3 reconnection attempts, no
reconnection attempt is started once the budget is exhausted, and the
remote-stream callback is invoked with null on each of the n - 3
failure events past the budget (so at least once when any occurs)
rather than exactly once. -/
theorem c4_reconnect_budget (r : Role) (n : Nat) :
    countReconnect (V4.iterFailures n (V4.initState r)).2 = min n 3 ∧
    countNullCb (V4.iterFailures n (V4.initState r)).2 = n - 3 ∧
    (V4.iterFailures n (V4.initState r)).1.reconnectAttempts = min n 3 := by
  obtain ⟨i1, i2, i3⟩ := iterFailures_spec n (V4.initState r) (by simp [V4.initState])
  have h0 : (V4.initState r).reconnectAttempts = 0 := rfl
  rw [h0] at i1 i2 i3
  refine ⟨by simpa using i1, by simpa using i2, by simpa using i3⟩

lemma onNegotiationNeeded_state (s : V4.State) :
    (V4.onNegotiationNeeded s).1.pendingCandidates = s.pendingCandidates ∧
    (V4.onNegotiationNeeded s).1.pc.iceState = s.pc.iceState := by
  unfold V4.onNegotiationNeeded
  by_cases h1 : s.isNegotiating = true ∨ s.canCreateOffer = false
  · simp [h1]
  · by_cases h2 : s.pc.signalingState = SigState.stable <;>
      simp [h1, h2, V4.Pc.setLocalOfferDesc]

lemma handleRemoteJoin_state (s : V4.State) :
    (V4.handleRemoteJoin s).1.pendingCandidates = s.pendingCandidates ∧
    (V4.handleRemoteJoin s).1.pc.iceState = s.pc.iceState := by
  unfold V4.handleRemoteJoin
  by_cases hc : s.role = Role.interviewer ∧ s.localStream.isSome = true
  · simp [hc, createAndSendOffer_state]
  · simp [hc]

lemma handleIce_pc (c : Option Cand) (s : V4.State) :
    (V4.handleIceCandidate c s).1.pc = s.pc := by
  cases c with
  | none => rfl
  | some c =>
      unfold V4.handleIceCandidate
      by_cases h1 : s.hasRemoteDescription = true ∧ s.pc.remoteDescription.isSome = true
      · by_cases h2 : c.ok = true
        · simp [h1, h2]
        · by_cases h3 : c.err = ErrName.invalidStateError <;> simp [h1, h2, h3]
      · simp [h1]

lemma handleStableEvent_pc (s : V4.State) :
    (V4.handleStableEvent s).1.pc = s.pc := by
  unfold V4.handleStableEvent
  by_cases h1 : s.stableEventPending = true
  · by_cases h2 : s.pc.signalingState = SigState.stable <;>
      simp [h1, h2, V4.onSignalingStable, processPending_pc]
  · simp [h1]

lemma handleOffer_ice (d : Nat) (sender : String) (s : V4.State) :
    (V4.handleOffer d sender s).1.pc.iceState = s.pc.iceState := by
  unfold V4.handleOffer
  by_cases hg : s.role = Role.interviewer ∧
      (s.isNegotiating = true ∨ s.pc.signalingState ≠ SigState.stable)
  · rw [if_pos hg]
  · rw [if_neg hg]
    by_cases hrb : s.pc.signalingState = SigState.haveRemoteOffer <;>
      simp [hrb, processPending_pc, V4.Pc.setLocalAnswerDesc,
            V4.Pc.setRemoteOfferDesc, V4.Pc.rollbackLocal]

lemma handleAnswer_ice (d : Nat) (s : V4.State) :
    (V4.handleAnswer d s).1.pc.iceState = s.pc.iceState := by
  unfold V4.handleAnswer
  by_cases hg : s.pc.signalingState = SigState.haveLocalOffer <;>
    simp [hg, processPending_pc, V4.Pc.setRemoteAnswerDesc]

lemma cleanup_ice (s : V4.State) :
    (V4.cleanup s).1.pc.iceState = IceState.closed := by
  unfold V4.cleanup
  cases hls : s.localStream <;> simp [hls]

lemma handleConnectionFailure_ice (s : V4.State) :
    (V4.handleConnectionFailure s).1.pc.iceState = s.pc.iceState ∨
    (V4.handleConnectionFailure s).1.pc.iceState = IceState.iceNew := by
  unfold V4.handleConnectionFailure
  by_cases hb : V4.maxReconnectAttempts ≤ s.reconnectAttempts
  · simp [hb]
  · cases hls : s.localStream with
    | some stream =>
        right
        simp [hb, hls, startCall_state, V4.Pc.init]
    | none =>
        right
        simp [hb, hls, V4.Pc.init]

lemma step_ice_failed (e : V4.Event) (s : V4.State)
    (h : (V4.step e s).1.pc.iceState = IceState.failed) :
    s.pc.iceState = IceState.failed ∨ Act.restartIce ∈ (V4.step e s).2 := by
  cases e with
  | signalOffer d sender =>
      simp only [V4.step] at h
      rw [handleOffer_ice] at h
      exact Or.inl h
  | signalAnswer d =>
      simp only [V4.step] at h
      rw [handleAnswer_ice] at h
      exact Or.inl h
  | signalIce c =>
      simp only [V4.step] at h
      rw [handleIce_pc] at h
      exact Or.inl h
  | signalJoin =>
      simp only [V4.step] at h
      rw [(handleRemoteJoin_state s).2] at h
      exact Or.inl h
  | negotiationNeeded =>
      simp only [V4.step] at h
      rw [(onNegotiationNeeded_state s).2] at h
      exact Or.inl h
  | stableFired =>
      simp only [V4.step] at h
      rw [handleStableEvent_pc] at h
      exact Or.inl h
  | iceStateChange st =>
      cases st <;> simp_all [V4.step, V4.handleIceStateChange]
  | connStateChange st =>
      cases st with
      | failed =>
          simp only [V4.step, V4.handleConnStateChange] at h
          rcases handleConnectionFailure_ice
              { s with pc := { s.pc with connState := ConnState.failed } } with hl | hl
          · rw [hl] at h
            exact Or.inl h
          · rw [hl] at h
            simp at h
      | closed =>
          simp only [V4.step, V4.handleConnStateChange] at h
          rcases handleConnectionFailure_ice
              { s with pc := { s.pc with connState := ConnState.closed } } with hl | hl
          · rw [hl] at h
            exact Or.inl h
          · rw [hl] at h
            simp at h
      | connected =>
          simp only [V4.step, V4.handleConnStateChange] at h
          exact Or.inl h
      | connNew =>
          simp only [V4.step, V4.handleConnStateChange] at h
          exact Or.inl h
      | connecting =>
          simp only [V4.step, V4.handleConnStateChange] at h
          exact Or.inl h
      | disconnected =>
          simp only [V4.step, V4.handleConnStateChange] at h
          exact Or.inl h
  | timeoutFired =>
      simp only [V4.step] at h
      unfold V4.handleTimeoutFired at h
      by_cases h1 : s.timeoutArmed = true
      · rw [if_pos h1] at h
        by_cases h2 : ({ s with timeoutArmed := false } : V4.State).pc.iceState
              = IceState.disconnected
            ∨ ({ s with timeoutArmed := false } : V4.State).pc.iceState = IceState.failed
        · rw [if_pos h2] at h
          rcases h2 with h2 | h2
          · rcases handleConnectionFailure_ice ({ s with timeoutArmed := false } : V4.State)
                with hl | hl
            · rw [hl] at h
              exact Or.inl h
            · rw [hl] at h
              simp at h
          · exact Or.inl h2
        · rw [if_neg h2] at h
          exact Or.inl h
      · rw [if_neg h1] at h
        exact Or.inl h
  | negTimer =>
      simp only [V4.step] at h
      unfold V4.negTimerFired at h
      by_cases h1 : s.negTimerArmed = true
      · rw [if_pos h1] at h
        exact Or.inl h
      · rw [if_neg h1] at h
        exact Or.inl h
  | offerTimer =>
      simp only [V4.step] at h
      unfold V4.offerTimerFired at h
      by_cases h1 : s.offerTimerArmed = true
      · rw [if_pos h1] at h
        exact Or.inl h
      · rw [if_neg h1] at h
        exact Or.inl h
  | callerStart stream =>
      simp only [V4.step] at h
      rw [(startCall_state stream s).2.2.2] at h
      exact Or.inl h
  | callerStop =>
      simp only [V4.step] at h
      rw [cleanup_ice] at h
      simp at h

lemma runA_restart_inv (r : Role) (es : List V4.Event) :
    (V4.runA es r).1.pc.iceState = IceState.failed →
    Act.restartIce ∈ (V4.runA es r).2 := by
  suffices hgen : ∀ (es : List V4.Event) (p : V4.State × List Act),
      (p.1.pc.iceState = IceState.failed → Act.restartIce ∈ p.2) →
      ((es.foldl V4.stepFold p).1.pc.iceState = IceState.failed →
        Act.restartIce ∈ (es.foldl V4.stepFold p).2) by
    intro h
    exact hgen es (V4.initState r, [])
      (by intro hx; simp [V4.initState, V4.Pc.init] at hx) h
  intro es
  induction es with
  | nil =>
      intro p hp
      simpa using hp
  | cons e tl ih =>
      intro p hp
      rw [List.foldl_cons]
      apply ih
      intro hx
      simp only [V4.stepFold] at hx ⊢
      rcases step_ice_failed e p.1 hx with hl | hr
      · exact List.mem_append_left _ (hp hl)
      · exact List.mem_append_right _ hr

/-- Claim C7: on an ICE-connectivity failure the coordinator attempts
an ICE restart on the existing peer connection and nothing else (no
reconnection is triggered by the failed ICE state itself), and in every
run, whenever the ICE connection is in the failed state an ICE-restart
attempt has already been emitted - so a full reconnection performed
while ICE is failed never precedes an ICE-restart attempt. -/
theorem c7_ice_restart_first (s : V4.State) (r : Role) (es : List V4.Event) :
    V4.handleIceStateChange IceState.failed s
      = ({ s with pc := { s.pc with iceState := IceState.failed } }, [Act.restartIce]) ∧
    ((V4.runA es r).1.pc.iceState = IceState.failed →
      Act.restartIce ∈ (V4.runA es r).2) :=
  ⟨rfl, runA_restart_inv r es⟩

/-- Witness for C7: a run consisting of one ICE-failed event contains
an ICE-restart attempt. -/
theorem c7_ice_restart_first_w :
    Act.restartIce ∈ (V4.runA [V4.Event.iceStateChange IceState.failed] Role.candidate).2 :=
  (c7_ice_restart_first (V4.initState Role.candidate) Role.candidate
    [V4.Event.iceStateChange IceState.failed]).2 (by decide)

/-- Claim C6 counterexample: the queue invariant fails as claimed on a
reachable state - a coordinator that buffered one candidate while no
remote description was set (hasRemoteDescription false) has the
candidate removed from the queue, without any drain, when the caller
dispatches startCall. -/
theorem c6_queue_claim_cex : ¬ V4.pendingQueueInvariantClaim := by
  intro h
  have h2 := h Role.candidate
    [V4.Event.signalIce (some ⟨1, true, ErrName.otherError⟩)] (V4.Event.callerStart [])
  rcases h2 with ⟨tail, ht⟩ | hr
  · rw [show (V4.step (V4.Event.callerStart [])
          (V4.runA [V4.Event.signalIce (some ⟨1, true, ErrName.otherError⟩)]
            Role.candidate).1).1.pendingCandidates = [] from by decide] at ht
    rw [show (V4.runA [V4.Event.signalIce (some ⟨1, true, ErrName.otherError⟩)]
          Role.candidate).1.pendingCandidates
        = [⟨1, true, ErrName.otherError⟩] from by decide] at ht
    simp at ht
  · rw [show (V4.runA [V4.Event.signalIce (some ⟨1, true, ErrName.otherError⟩)]
          Role.candidate).1.hasRemoteDescription = false from by decide] at hr
    simp at hr

/-- Claim C6 (amended): apart from the lifecycle resets - the caller's
startCall and cleanup and the failure paths that can trigger a
reconnection, all of which clear the queue discarding buffered
candidates - every event either appends to the pending queue at the
tail, or is a drain step leaving the peer connection with a remote
description set. -/
theorem c6_queue_discipline (s : V4.State) (e : V4.Event)
    (h : V4.lifecycleEvent e = false) :
    (∃ tail, (V4.step e s).1.pendingCandidates = s.pendingCandidates ++ tail) ∨
    (V4.step e s).1.pc.remoteDescription.isSome = true := by
  obtain ⟨ro, pc, ls, rs, pend, hrd, ta, ra, ruj, cip, ineg, cco, sep, nta, ota⟩ := s
  cases e with
  | signalOffer d sender =>
      simp only [V4.step]
      unfold V4.handleOffer
      by_cases hg : (⟨ro, pc, ls, rs, pend, hrd, ta, ra, ruj, cip, ineg, cco, sep, nta,
          ota⟩ : V4.State).role = Role.interviewer ∧
          ((⟨ro, pc, ls, rs, pend, hrd, ta, ra, ruj, cip, ineg, cco, sep, nta,
            ota⟩ : V4.State).isNegotiating = true ∨
           (⟨ro, pc, ls, rs, pend, hrd, ta, ra, ruj, cip, ineg, cco, sep, nta,
            ota⟩ : V4.State).pc.signalingState ≠ SigState.stable)
      · rw [if_pos hg]
        exact Or.inl ⟨[], by simp⟩
      · rw [if_neg hg]
        right
        by_cases hrb : pc.signalingState = SigState.haveRemoteOffer <;>
          simp [hrb, processPending_pc, V4.Pc.setLocalAnswerDesc,
                V4.Pc.setRemoteOfferDesc, V4.Pc.rollbackLocal, V4.Pc.remoteDescription]
  | signalAnswer d =>
      simp only [V4.step]
      unfold V4.handleAnswer
      by_cases hg : pc.signalingState = SigState.haveLocalOffer
      · right
        simp [hg, processPending_pc, V4.Pc.setRemoteAnswerDesc, V4.Pc.remoteDescription]
      · simp only [hg]
        exact Or.inl ⟨[], by simp [hg]⟩
  | signalIce c =>
      left
      simp only [V4.step]
      cases c with
      | none => exact ⟨[], by simp [V4.handleIceCandidate]⟩
      | some c =>
          unfold V4.handleIceCandidate
          by_cases h1 : hrd = true ∧ pc.remoteDescription.isSome = true
          · by_cases h2 : c.ok = true
            · exact ⟨[], by simp [h1, h2]⟩
            · by_cases h3 : c.err = ErrName.invalidStateError
              · exact ⟨[c], by simp [h1, h2, h3]⟩
              · exact ⟨[], by simp [h1, h2, h3]⟩
          · exact ⟨[c], by simp [h1]⟩
  | signalJoin =>
      exact Or.inl ⟨[], by simp [V4.step, (handleRemoteJoin_state _).1]⟩
  | negotiationNeeded =>
      exact Or.inl ⟨[], by simp [V4.step, (onNegotiationNeeded_state _).1]⟩
  | stableFired =>
      simp only [V4.step]
      unfold V4.handleStableEvent
      by_cases h1 : sep = true
      · by_cases h2 : pc.signalingState = SigState.stable
        · rcases processPending_pending_cases
            ⟨ro, pc, ls, rs, pend, hrd, ta, ra, ruj, cip, false, cco, false, nta, ota⟩
            with hq | hq
          · exact Or.inl ⟨[], by simp [h1, h2, V4.onSignalingStable, hq]⟩
          · right
            simp [h1, h2, V4.onSignalingStable, processPending_pc]
            simpa using hq
        · exact Or.inl ⟨[], by simp [h1, h2]⟩
      · exact Or.inl ⟨[], by simp [h1]⟩
  | iceStateChange st =>
      exact Or.inl ⟨[], by cases st <;> simp [V4.step, V4.handleIceStateChange]⟩
  | connStateChange st =>
      cases st with
      | connected => exact Or.inl ⟨[], by simp [V4.step, V4.handleConnStateChange]⟩
      | connNew => exact Or.inl ⟨[], by simp [V4.step, V4.handleConnStateChange]⟩
      | connecting => exact Or.inl ⟨[], by simp [V4.step, V4.handleConnStateChange]⟩
      | disconnected => exact Or.inl ⟨[], by simp [V4.step, V4.handleConnStateChange]⟩
      | failed => simp [V4.lifecycleEvent] at h
      | closed => simp [V4.lifecycleEvent] at h
  | timeoutFired => simp [V4.lifecycleEvent] at h
  | negTimer =>
      simp only [V4.step]
      unfold V4.negTimerFired
      by_cases h1 : nta = true
      · exact Or.inl ⟨[], by simp [h1]⟩
      · exact Or.inl ⟨[], by simp [h1]⟩
  | offerTimer =>
      simp only [V4.step]
      unfold V4.offerTimerFired
      by_cases h1 : ota = true
      · exact Or.inl ⟨[], by simp [h1]⟩
      · exact Or.inl ⟨[], by simp [h1]⟩
  | callerStart stream => simp [V4.lifecycleEvent] at h
  | callerStop => simp [V4.lifecycleEvent] at h

/-- Witness for the amended C6 at a concrete non-lifecycle event. -/
theorem c6_queue_discipline_w :
    (∃ tail, (V4.step V4.Event.negotiationNeeded
          (V4.initState Role.candidate)).1.pendingCandidates
        = (V4.initState Role.candidate).pendingCandidates ++ tail) ∨
    (V4.step V4.Event.negotiationNeeded
        (V4.initState Role.candidate)).1.pc.remoteDescription.isSome = true :=
  c6_queue_discipline (V4.initState Role.candidate) V4.Event.negotiationNeeded (by decide)
